import Mathlib

/-!
Shallow embedding of the Galactic Arcade multiplayer server
(src/server.js).  The server keeps a mutable game state (player
registry, shared door flag, arcade-machine overlay map), a set of
used identity colors, and a per-connection throttle map for move
events.  Each socket event handler is modelled as a pure function
from the pre-state to an `Outcome`: the post-state, the list of
emitted messages (each tagged with its recipient set), and an
optional thrown JavaScript error.

Emission targets translate the socket.io calls:
  `socket.emit`            -> `Target.sender`  (the event sender only)
  `socket.broadcast.emit`  -> `Target.others`  (everyone except sender)
  `io.emit`                -> `Target.all`     (every connection)

JavaScript `Map` objects are modelled as insertion-ordered
association lists (`mapGet` / `mapSet` / `mapDelete`), the
`usedColors` `Set` as a `Finset String`, and a possibly-undefined
value as an `Option`.  A handler statement that reads a property of
`undefined` (for example `playerData.name` when the event arrived
without a payload) raises a TypeError; this is modelled by the
`err` field of the `Outcome`, together with the state mutations that
happened before the throwing statement.
-/

/-- A concrete x-y position record, as sent by clients. -/
structure PosXY where
  x : Int
  y : Int
deriving DecidableEq, Repr

/-- The per-player record stored in `gameState.players`
(src/server.js lines 71-77).  `name` is `Option` because the client
payload may lack the field (then it is `undefined`), and `position`
is `Option` because a move event may carry no payload at all. -/
structure PlayerInfo where
  id : String
  name : Option String
  color : String
  position : Option PosXY
  lastUpdate : Nat
deriving DecidableEq, Repr

/-- The value stored in `gameState.arcadeMachines`. -/
structure Overlay where
  isTransparent : Option Bool
  forPlayer : Option String
deriving DecidableEq, Repr

/-- The payload of an `arcadeMachineTransparency` event; every field
may be absent. -/
structure TransparencyData where
  machineId : Option String
  isTransparent : Option Bool
  forPlayer : Option String
deriving DecidableEq, Repr

/-- The payload of a `playerJoin` event.  The server reads only
`name`; `color` models a declared/preferred color which the server
ignores. -/
structure JoinPayload where
  name : Option String
  color : Option String
deriving DecidableEq, Repr

/-- JavaScript `Map.prototype.get`. -/
def mapGet {κ α : Type} [DecidableEq κ] : List (κ × α) → κ → Option α
  | [], _ => none
  | (k₁, v₁) :: rest, k => if k₁ = k then some v₁ else mapGet rest k

/-- JavaScript `Map.prototype.set`: replace the entry in place if the
key is present (keeping insertion order), append otherwise. -/
def mapSet {κ α : Type} [DecidableEq κ] : List (κ × α) → κ → α → List (κ × α)
  | [], k, v => [(k, v)]
  | (k₁, v₁) :: rest, k, v =>
    if k₁ = k then (k, v) :: rest else (k₁, v₁) :: mapSet rest k v

/-- JavaScript `Map.prototype.delete`: remove the entry with the key,
a no-op when the key is absent. -/
def mapDelete {κ α : Type} [DecidableEq κ] : List (κ × α) → κ → List (κ × α)
  | [], _ => []
  | (k₁, v₁) :: rest, k => if k₁ = k then rest else (k₁, v₁) :: mapDelete rest k

/-- The whole mutable server state: `gameState.players`,
`gameState.doorState.isOpen`, `gameState.arcadeMachines`,
`usedColors`, and `playerUpdateThrottle`. -/
structure ServerState where
  players : List (String × PlayerInfo)
  doorOpen : Bool
  arcadeMachines : List (Option String × Overlay)
  usedColors : Finset String
  throttle : List (String × Nat)
deriving DecidableEq

/-- The state at server start (src/server.js lines 16-26). -/
def initState : ServerState :=
  { players := [], doorOpen := false, arcadeMachines := [],
    usedColors := ∅, throttle := [] }

/-- Recipient set of an emitted message. -/
inductive Target
  | sender
  | others
  | all
deriving DecidableEq, Repr

/-- The outbound messages the server can emit. -/
inductive Msg
  | playerColorAssigned (color : String)
  | gameState (players : List PlayerInfo) (doorOpen : Bool)
  | playerJoined (p : PlayerInfo)
  | playerMoved (id : String) (position : Option PosXY)
  | doorStateChanged (isOpen : Bool)
  | arcadeMachineTransparencyChanged (data : TransparencyData)
  | playerLeft (id : String)
deriving DecidableEq

/-- One emission: a message together with its recipient set. -/
abbrev Emit := Target × Msg

/-- Result of running one event handler: the post-state, the emitted
messages in order, and the raised JavaScript error if the handler
threw (the state then reflects the mutations made before the throw). -/
structure Outcome where
  state : ServerState
  emits : List Emit
  err : Option String
deriving DecidableEq

/-- `UPDATE_THROTTLE_MS` (src/server.js line 27). -/
def UPDATE_THROTTLE_MS : Nat := 16

/-- `i.toString().padStart(2, "0")` for the color labels. -/
def padTwo (str : String) : String :=
  if str.length < 2 then "0" ++ str else str

/-- The sixteen candidate color labels "01", "02", ..., "16", in the
order the `assignColor` loop scans them. -/
def colorLabels : List String :=
  (List.range 16).map (fun i => padTwo (toString (i + 1)))

/-- The scanning loop of `assignColor` (src/server.js lines 31-37):
the first candidate label not in `used`, if any. -/
def assignColorFrom (used : Finset String) : List String → Option String
  | [] => none
  | c :: rest => if c ∈ used then assignColorFrom used rest else some c

/-- `assignColor` (src/server.js lines 30-39): returns the chosen
color and the updated `usedColors` set.  When every label is used the
loop falls through and returns "01" without marking anything. -/
def assignColor (used : Finset String) : String × Finset String :=
  match assignColorFrom used colorLabels with
  | some c => (c, insert c used)
  | none => ("01", used)

/-- `releaseColor` (src/server.js lines 42-44). -/
def releaseColor (used : Finset String) (color : String) : Finset String :=
  used.erase color

/-- Default spawn position (src/server.js line 75). -/
def spawnPosition : PosXY := { x := 400, y := 680 }

/-- The `playerJoin` handler (src/server.js lines 64-102).
`assignColor()` runs first; the construction of `playerInfo` then
reads `playerData.name`, which throws a TypeError when the event
arrived without a payload (`playerData` is `undefined`) — in that
case `usedColors` has already been mutated but nothing is stored or
emitted. -/
def handleJoin (sid : String) (payload : Option JoinPayload) (now : Nat)
    (s : ServerState) : Outcome :=
  let pair := assignColor s.usedColors
  let assignedColor := pair.1
  let used := pair.2
  match payload with
  | none =>
    { state := { s with usedColors := used }, emits := [],
      err := some "TypeError: cannot read properties of undefined" }
  | some pd =>
    let playerInfo : PlayerInfo :=
      { id := sid, name := pd.name, color := assignedColor,
        position := some spawnPosition, lastUpdate := now }
    let players := mapSet s.players sid playerInfo
    let otherPlayers := (players.map Prod.snd).filter (fun p => p.id != sid)
    { state := { s with players := players, usedColors := used },
      emits := [(Target.sender, Msg.playerColorAssigned assignedColor),
                (Target.sender, Msg.gameState otherPlayers s.doorOpen),
                (Target.others, Msg.playerJoined playerInfo)],
      err := none }

/-- The `playerMove` handler (src/server.js lines 105-121).  A move
from a connection without a registry entry is dropped; otherwise the
update is admitted only when `now - lastUpdate >= UPDATE_THROTTLE_MS`,
where a missing throttle record reads as 0 (`|| 0`). -/
def handleMove (sid : String) (position : Option PosXY) (now : Nat)
    (s : ServerState) : Outcome :=
  match mapGet s.players sid with
  | some player =>
    let lastUpdate := (mapGet s.throttle sid).getD 0
    if UPDATE_THROTTLE_MS ≤ now - lastUpdate then
      let updated := { player with position := position, lastUpdate := now }
      { state := { s with players := mapSet s.players sid updated,
                          throttle := mapSet s.throttle sid now },
        emits := [(Target.others, Msg.playerMoved sid position)],
        err := none }
    else { state := s, emits := [], err := none }
  | none => { state := s, emits := [], err := none }

/-- The `toggleDoor` handler (src/server.js lines 124-128): flips the
flag unconditionally and emits to every connection. -/
def handleToggleDoor (_sid : String) (s : ServerState) : Outcome :=
  { state := { s with doorOpen := !s.doorOpen },
    emits := [(Target.all, Msg.doorStateChanged (!s.doorOpen))],
    err := none }

/-- The `arcadeMachineTransparency` handler (src/server.js lines
131-135).  Destructuring `data` throws when the payload is absent;
otherwise the overlay is upserted unconditionally and the payload is
rebroadcast to the others. -/
def handleArcade (_sid : String) (data : Option TransparencyData)
    (s : ServerState) : Outcome :=
  match data with
  | none =>
    { state := s, emits := [],
      err := some "TypeError: cannot destructure properties of undefined" }
  | some d =>
    let overlay : Overlay := { isTransparent := d.isTransparent, forPlayer := d.forPlayer }
    { state := { s with arcadeMachines := mapSet s.arcadeMachines d.machineId overlay },
      emits := [(Target.others, Msg.arcadeMachineTransparencyChanged d)],
      err := none }

/-- The `disconnect` handler (src/server.js lines 138-153): release
the color only when a registry entry exists, then delete the registry
and throttle entries, then emit `playerLeft` to every connection —
the emission is unconditional. -/
def handleDisconnect (sid : String) (s : ServerState) : Outcome :=
  let s₁ :=
    match mapGet s.players sid with
    | some player => { s with usedColors := releaseColor s.usedColors player.color }
    | none => s
  { state := { s₁ with players := mapDelete s₁.players sid,
                       throttle := mapDelete s₁.throttle sid },
    emits := [(Target.all, Msg.playerLeft sid)],
    err := none }

/-- The response of `GET /health` (src/server.js lines 47-49):
`status` and the player count.  The handler only reads the state, so
it is modelled as returning the (unchanged) state alongside the
response body. -/
def healthQuery (s : ServerState) : ServerState × (String × Nat) :=
  (s, ("ok", s.players.length))

/-- The response body of `GET /game-state` (src/server.js lines
52-58): the player records, the door flag, and the overlay map as
key-value entries. -/
structure GameStateResponse where
  players : List PlayerInfo
  doorOpen : Bool
  arcadeMachines : List (Option String × Overlay)
deriving DecidableEq

/-- `GET /game-state`: a pure read of the state. -/
def gameStateQuery (s : ServerState) : ServerState × GameStateResponse :=
  (s, { players := s.players.map Prod.snd, doorOpen := s.doorOpen,
        arcadeMachines := s.arcadeMachines })

/-- An inbound event at the socket boundary.  Payload-carrying events
use `Option` for the payload: `none` models a client emit with no
argument (the handler parameter is then `undefined`). -/
inductive Event
  | join (sid : String) (payload : Option JoinPayload) (now : Nat)
  | move (sid : String) (position : Option PosXY) (now : Nat)
  | toggleDoor (sid : String)
  | arcade (sid : String) (data : Option TransparencyData)
  | disconnect (sid : String)
deriving DecidableEq

/-- Dispatch one event to its handler. -/
def handle : Event → ServerState → Outcome
  | Event.join sid payload now, s => handleJoin sid payload now s
  | Event.move sid position now, s => handleMove sid position now s
  | Event.toggleDoor sid, s => handleToggleDoor sid s
  | Event.arcade sid data, s => handleArcade sid data s
  | Event.disconnect sid, s => handleDisconnect sid s

/-- Run a sequence of events (single-threaded, in order), returning
the final state.  A thrown handler error leaves the partially-mutated
state in place, exactly as an uncaught exception would on the shared
globals. -/
def runTrace (s : ServerState) : List Event → ServerState
  | [] => s
  | e :: rest => runTrace (handle e s).state rest

/-- Run a sequence of events collecting every emission, in order. -/
def runTraceEmits (s : ServerState) : List Event → ServerState × List Emit
  | [] => (s, [])
  | e :: rest =>
    let o := handle e s
    let r := runTraceEmits o.state rest
    (r.1, o.emits ++ r.2)

/-- The colors currently held by registered players, in registry
order. -/
def activeColors (s : ServerState) : List String :=
  s.players.map (fun pr => pr.2.color)

/-- Whether an inbound event carries its payload (a client emit with
an argument).  Events without a payload parameter always count as
present. -/
def payloadPresentB : Event → Bool
  | Event.join _ payload _ => payload.isSome
  | Event.arcade _ data => data.isSome
  | _ => true

/-- Whether an emission is a `playerMoved` broadcast. -/
def isPlayerMoved : Emit → Bool
  | (_, Msg.playerMoved _ _) => true
  | _ => false

/-- Number of `playerMoved` broadcasts in an emission list. -/
def countPlayerMoved (emits : List Emit) : Nat :=
  (emits.filter isPlayerMoved).length

/-- Whether an event is a `toggleDoor` event. -/
def isToggle : Event → Bool
  | Event.toggleDoor _ => true
  | _ => false

/-- Discipline on one event for the color-uniqueness invariant: a
join must carry a payload, come from a connection that is not already
registered, and happen while fewer than 16 players are registered; an
arcade event must carry a payload; other events are unrestricted. -/
def goodStep (s : ServerState) : Event → Bool
  | Event.join sid payload _ =>
    payload.isSome && (mapGet s.players sid).isNone && decide (s.players.length < 16)
  | Event.arcade _ data => data.isSome
  | _ => true

/-- The discipline along a whole trace. -/
def goodTrace : ServerState → List Event → Bool
  | _, [] => true
  | s, e :: rest => goodStep s e && goodTrace (handle e s).state rest

/-- Whether at most 16 players are registered in every state along a
trace, the initial and final states included. -/
def boundedActive : ServerState → List Event → Bool
  | s, [] => decide (s.players.length ≤ 16)
  | s, e :: rest => decide (s.players.length ≤ 16) && boundedActive (handle e s).state rest

/-- A join event with a payload that declares no name and no color. -/
def joinEvt (sid : String) : Event :=
  Event.join sid (some { name := none, color := none }) 0

/-- A trace with at most three concurrently registered players in
which connection "b" re-joins repeatedly: "a" joins once, "b" joins
fifteen times, then "c" joins. -/
def c3Trace : List Event :=
  joinEvt "a" :: (List.replicate 15 (joinEvt "b") ++ [joinEvt "c"])

/-- The color bookkeeping invariant: registered players hold pairwise
distinct colors, `usedColors` is exactly the set of colors they hold,
and every used color is one of the sixteen pool labels. -/
def ColorInv (s : ServerState) : Prop :=
  (activeColors s).Nodup ∧
  s.usedColors = (activeColors s).toFinset ∧
  s.usedColors ⊆ colorLabels.toFinset

/-- The server state after a single join by connection "a": one
registered player with color "01" and no throttle record. -/
def c5State : ServerState := runTrace initState [joinEvt "a"]

/-! Basic lemmas about the association-list operations. -/

theorem mapGet_eq_none_iff {κ α : Type} [DecidableEq κ] (l : List (κ × α)) (k : κ) :
    mapGet l k = none ↔ k ∉ l.map Prod.fst := by
  induction l with
  | nil => simp [mapGet]
  | cons hd tl ih =>
    obtain ⟨k₁, v₁⟩ := hd
    by_cases h : k₁ = k
    · simp [mapGet, h]
    · simp [mapGet, h, ih]
      exact fun _ hk => h hk.symm

theorem mapGet_mapSet_self {κ α : Type} [DecidableEq κ] (l : List (κ × α)) (k : κ) (v : α) :
    mapGet (mapSet l k v) k = some v := by
  induction l with
  | nil => simp [mapSet, mapGet]
  | cons hd tl ih =>
    obtain ⟨k₁, v₁⟩ := hd
    by_cases h : k₁ = k <;> simp [mapSet, mapGet, h, ih]

theorem mapSet_of_get_none {κ α : Type} [DecidableEq κ] (l : List (κ × α)) (k : κ) (v : α)
    (h : mapGet l k = none) : mapSet l k v = l ++ [(k, v)] := by
  induction l with
  | nil => simp [mapSet]
  | cons hd tl ih =>
    obtain ⟨k₁, v₁⟩ := hd
    by_cases hk : k₁ = k
    · simp [mapGet, hk] at h
    · simp [mapGet, hk] at h
      simp [mapSet, hk, ih h]

theorem mapDelete_of_get_none {κ α : Type} [DecidableEq κ] (l : List (κ × α)) (k : κ)
    (h : mapGet l k = none) : mapDelete l k = l := by
  induction l with
  | nil => simp [mapDelete]
  | cons hd tl ih =>
    obtain ⟨k₁, v₁⟩ := hd
    by_cases hk : k₁ = k
    · simp [mapGet, hk] at h
    · simp [mapGet, hk] at h
      simp [mapDelete, hk, ih h]

theorem mapDelete_sublist {κ α : Type} [DecidableEq κ] (l : List (κ × α)) (k : κ) :
    List.Sublist (mapDelete l k) l := by
  induction l with
  | nil => simp [mapDelete]
  | cons hd tl ih =>
    obtain ⟨k₁, v₁⟩ := hd
    by_cases hk : k₁ = k
    · simp [mapDelete, hk]
    · simp [mapDelete, hk]
      exact ih

theorem mapGet_mapDelete_self {κ α : Type} [DecidableEq κ] (l : List (κ × α)) (k : κ)
    (h : (l.map Prod.fst).Nodup) : mapGet (mapDelete l k) k = none := by
  induction l with
  | nil => simp [mapDelete, mapGet]
  | cons hd tl ih =>
    obtain ⟨k₁, v₁⟩ := hd
    simp only [List.map_cons, List.nodup_cons] at h
    by_cases hk : k₁ = k
    · subst hk
      rw [mapGet_eq_none_iff]
      simpa [mapDelete] using h.1
    · simp [mapDelete, mapGet, hk, ih h.2]

theorem mapGet_mem {κ α : Type} [DecidableEq κ] {l : List (κ × α)} {k : κ} {v : α}
    (h : mapGet l k = some v) : (k, v) ∈ l := by
  induction l with
  | nil => simp [mapGet] at h
  | cons hd tl ih =>
    obtain ⟨k₁, v₁⟩ := hd
    by_cases hk : k₁ = k
    · simp [mapGet, hk] at h
      simp [hk, h]
    · simp [mapGet, hk] at h
      exact List.mem_cons_of_mem _ (ih h)

/-! Lemmas about the color allocator. -/

theorem assignColorFrom_eq_none_iff (used : Finset String) (ls : List String) :
    assignColorFrom used ls = none ↔ ∀ c ∈ ls, c ∈ used := by
  induction ls with
  | nil => simp [assignColorFrom]
  | cons hd tl ih =>
    by_cases h : hd ∈ used <;> simp [assignColorFrom, h, ih]

theorem assignColorFrom_some (used : Finset String) {ls : List String} {c : String}
    (h : assignColorFrom used ls = some c) :
    c ∈ ls ∧ c ∉ used ∧ ∀ d ∈ ls.takeWhile (fun l => l != c), d ∈ used := by
  induction ls with
  | nil => simp [assignColorFrom] at h
  | cons hd tl ih =>
    by_cases hh : hd ∈ used
    · simp only [assignColorFrom, if_pos hh] at h
      obtain ⟨h₁, h₂, h₃⟩ := ih h
      have hne : hd ≠ c := fun he => h₂ (he ▸ hh)
      refine ⟨List.mem_cons_of_mem _ h₁, h₂, ?_⟩
      intro d hd₂
      rw [List.takeWhile_cons_of_pos (by simpa using hne)] at hd₂
      rcases List.mem_cons.mp hd₂ with h | h
      · exact h ▸ hh
      · exact h₃ d h
    · simp only [assignColorFrom, if_neg hh, Option.some.injEq] at h
      subst h
      refine ⟨List.mem_cons_self _ _, hh, ?_⟩
      intro d hd₂
      simp [List.takeWhile_cons_of_neg] at hd₂

theorem assignColor_subset (used : Finset String) : used ⊆ (assignColor used).2 := by
  unfold assignColor
  cases h : assignColorFrom used colorLabels with
  | none => simp
  | some c =>
    simp only
    exact Finset.subset_insert _ _

theorem assignColor_isSome_of_not_full {used : Finset String}
    (h : ¬ colorLabels.toFinset ⊆ used) :
    ∃ c, assignColorFrom used colorLabels = some c := by
  cases hc : assignColorFrom used colorLabels with
  | none =>
    exfalso
    apply h
    intro x hx
    exact (assignColorFrom_eq_none_iff used colorLabels).mp hc x (List.mem_toFinset.mp hx)
  | some c => exact ⟨c, rfl⟩

/-! Lemmas tracking the colors of registered players across map
operations. -/

theorem mapSet_map_color {l : List (String × PlayerInfo)} {sid : String}
    {player updated : PlayerInfo} (hget : mapGet l sid = some player)
    (hcol : updated.color = player.color) :
    (mapSet l sid updated).map (fun pr => pr.2.color) = l.map (fun pr => pr.2.color) := by
  induction l with
  | nil => simp [mapGet] at hget
  | cons hd tl ih =>
    obtain ⟨k₁, v₁⟩ := hd
    by_cases hk : k₁ = sid
    · simp [mapGet, hk] at hget
      simp [mapSet, hk, hcol, hget]
    · simp [mapGet, hk] at hget
      simp [mapSet, hk, ih hget]

theorem mapDelete_colors {sid : String} {p : PlayerInfo} :
    ∀ {l : List (String × PlayerInfo)}, mapGet l sid = some p →
      (l.map fun pr => pr.2.color).Nodup →
      ((mapDelete l sid).map fun pr => pr.2.color).Nodup ∧
      ((mapDelete l sid).map fun pr => pr.2.color).toFinset
        = ((l.map fun pr => pr.2.color).toFinset).erase p.color := by
  intro l
  induction l with
  | nil => intro hget; simp [mapGet] at hget
  | cons hd tl ih =>
    intro hget hnd
    obtain ⟨k₁, v₁⟩ := hd
    simp only [List.map_cons, List.nodup_cons] at hnd
    by_cases hk : k₁ = sid
    · simp [mapGet, hk] at hget
      subst hget
      refine ⟨by simpa [mapDelete, hk] using hnd.2, ?_⟩
      have hv : v₁.color ∉ (tl.map fun pr => pr.2.color).toFinset := by
        simpa using hnd.1
      simp [mapDelete, hk, Finset.erase_insert hv]
    · simp only [mapGet, if_neg hk] at hget
      obtain ⟨ihn, ihf⟩ := ih hget hnd.2
      have hpmem : p.color ∈ tl.map fun pr => pr.2.color := by
        have := mapGet_mem hget
        exact List.mem_map.mpr ⟨(sid, p), this, rfl⟩
      have hne : v₁.color ≠ p.color := fun he => hnd.1 (he ▸ hpmem)
      constructor
      · simp only [mapDelete, if_neg hk, List.map_cons, List.nodup_cons]
        refine ⟨?_, ihn⟩
        intro hmem
        exact hnd.1 ((mapDelete_sublist tl sid).map (fun pr => pr.2.color) |>.mem hmem)
      · simp only [mapDelete, if_neg hk, List.map_cons, List.toFinset_cons, ihf]
        ext x
        simp only [Finset.mem_insert, Finset.mem_erase]
        constructor
        · rintro (rfl | ⟨hx, hx₂⟩)
          · exact ⟨hne, Or.inl rfl⟩
          · exact ⟨hx, Or.inr hx₂⟩
        · rintro ⟨hx, rfl | hx₂⟩
          · exact Or.inl rfl
          · exact Or.inr ⟨hx, hx₂⟩


/-! Characterizations of each handler on resolved inputs. -/

theorem handleJoin_some (sid : String) (pd : JoinPayload) (now : Nat) (s : ServerState) :
    handleJoin sid (some pd) now s =
      { state := { s with
          players := mapSet s.players sid
            { id := sid, name := pd.name, color := (assignColor s.usedColors).1,
              position := some spawnPosition, lastUpdate := now },
          usedColors := (assignColor s.usedColors).2 },
        emits := [(Target.sender, Msg.playerColorAssigned (assignColor s.usedColors).1),
                  (Target.sender, Msg.gameState
                    (((mapSet s.players sid
                        { id := sid, name := pd.name, color := (assignColor s.usedColors).1,
                          position := some spawnPosition, lastUpdate := now }).map Prod.snd).filter
                      (fun p => p.id != sid)) s.doorOpen),
                  (Target.others, Msg.playerJoined
                    { id := sid, name := pd.name, color := (assignColor s.usedColors).1,
                      position := some spawnPosition, lastUpdate := now })],
        err := none } := rfl

theorem handleJoin_none (sid : String) (now : Nat) (s : ServerState) :
    handleJoin sid none now s =
      { state := { s with usedColors := (assignColor s.usedColors).2 }, emits := [],
        err := some "TypeError: cannot read properties of undefined" } := rfl

theorem handleMove_pending {sid : String} {position : Option PosXY} {now : Nat}
    {s : ServerState} (h : mapGet s.players sid = none) :
    handleMove sid position now s = { state := s, emits := [], err := none } := by
  simp [handleMove, h]

theorem handleMove_reject {sid : String} {position : Option PosXY} {now : Nat}
    {s : ServerState} {player : PlayerInfo} (h : mapGet s.players sid = some player)
    (ht : ¬ UPDATE_THROTTLE_MS ≤ now - (mapGet s.throttle sid).getD 0) :
    handleMove sid position now s = { state := s, emits := [], err := none } := by
  simp [handleMove, h, ht]

theorem handleMove_admitted {sid : String} {position : Option PosXY} {now : Nat}
    {s : ServerState} {player : PlayerInfo} (h : mapGet s.players sid = some player)
    (ht : UPDATE_THROTTLE_MS ≤ now - (mapGet s.throttle sid).getD 0) :
    handleMove sid position now s =
      { state := { s with
          players := mapSet s.players sid { player with position := position, lastUpdate := now },
          throttle := mapSet s.throttle sid now },
        emits := [(Target.others, Msg.playerMoved sid position)], err := none } := by
  simp [handleMove, h, ht]

theorem handleDisconnect_some {sid : String} {s : ServerState} {player : PlayerInfo}
    (h : mapGet s.players sid = some player) :
    handleDisconnect sid s =
      { state := { s with players := mapDelete s.players sid,
                          usedColors := releaseColor s.usedColors player.color,
                          throttle := mapDelete s.throttle sid },
        emits := [(Target.all, Msg.playerLeft sid)], err := none } := by
  simp [handleDisconnect, h]

theorem handleDisconnect_none {sid : String} {s : ServerState}
    (h : mapGet s.players sid = none) :
    handleDisconnect sid s =
      { state := { s with players := mapDelete s.players sid,
                          throttle := mapDelete s.throttle sid },
        emits := [(Target.all, Msg.playerLeft sid)], err := none } := by
  simp [handleDisconnect, h]

/-! The color bookkeeping invariant holds along every disciplined
trace. -/

theorem colorLabels_toFinset_card : colorLabels.toFinset.card = 16 := by decide

theorem colorInv_initState : ColorInv initState := by
  refine ⟨List.nodup_nil, ?_, ?_⟩ <;> simp [initState, activeColors]

theorem colorInv_handle {s : ServerState} {e : Event} (hs : ColorInv s)
    (hgood : goodStep s e = true) : ColorInv (handle e s).state := by
  obtain ⟨hnd, hused, hsub⟩ := hs
  cases e with
  | join sid payload now =>
    cases payload with
    | none => simp [goodStep] at hgood
    | some pd =>
      simp only [goodStep, Bool.and_eq_true, decide_eq_true_eq,
        Option.isNone_iff_eq_none] at hgood
      obtain ⟨⟨-, hgetn⟩, hlen⟩ := hgood
      have hnotfull : ¬ colorLabels.toFinset ⊆ s.usedColors := by
        intro hfull
        have h₁ : (16 : Nat) ≤ s.usedColors.card := by
          have := Finset.card_le_card hfull
          simpa [colorLabels_toFinset_card] using this
        have h₂ : s.usedColors.card ≤ s.players.length := by
          rw [hused]
          calc (activeColors s).toFinset.card ≤ (activeColors s).length :=
                List.toFinset_card_le _
            _ = s.players.length := by simp [activeColors]
        omega
      obtain ⟨c, hc⟩ := assignColor_isSome_of_not_full hnotfull
      obtain ⟨hcl, hcnot, -⟩ := assignColorFrom_some _ hc
      have hassign : assignColor s.usedColors = (c, insert c s.usedColors) := by
        unfold assignColor
        rw [hc]
      show ColorInv (handleJoin sid (some pd) now s).state
      rw [handleJoin_some, hassign]
      have hcnotl : c ∉ activeColors s := by
        intro hmem
        exact hcnot (hused ▸ List.mem_toFinset.mpr hmem)
      have hset := mapSet_of_get_none s.players sid
        { id := sid, name := pd.name, color := c,
          position := some spawnPosition, lastUpdate := now } hgetn
      refine ⟨?_, ?_, ?_⟩
      · show ((mapSet s.players sid _).map fun pr => pr.2.color).Nodup
        rw [hset]
        simp only [List.map_append, List.map_cons, List.map_nil]
        rw [List.nodup_append]
        refine ⟨hnd, List.nodup_singleton _, fun a ha hb => ?_⟩
        simp only [List.mem_singleton] at hb
        subst hb
        exact hcnotl (by simpa [activeColors] using ha)
      · show insert c s.usedColors = ((mapSet s.players sid _).map fun pr => pr.2.color).toFinset
        rw [hset, hused]
        simp only [List.map_append, List.map_cons, List.map_nil, List.toFinset_append]
        ext x
        simp only [Finset.mem_insert, Finset.mem_union, List.mem_toFinset,
          List.toFinset_cons, List.toFinset_nil, insert_emptyc_eq, Finset.mem_singleton,
          activeColors]
        tauto
      · exact Finset.insert_subset (List.mem_toFinset.mpr hcl) hsub
  | move sid position now =>
    cases hget : mapGet s.players sid with
    | none =>
      show ColorInv (handleMove sid position now s).state
      rw [handleMove_pending hget]
      exact ⟨hnd, hused, hsub⟩
    | some player =>
      by_cases ht : UPDATE_THROTTLE_MS ≤ now - (mapGet s.throttle sid).getD 0
      · show ColorInv (handleMove sid position now s).state
        rw [handleMove_admitted hget ht]
        have hcolors := @mapSet_map_color s.players sid player { player with position := position, lastUpdate := now } hget rfl
        refine ⟨?_, ?_, hsub⟩
        · show ((mapSet s.players sid _).map fun pr => pr.2.color).Nodup
          rw [hcolors]
          exact hnd
        · show s.usedColors = ((mapSet s.players sid _).map fun pr => pr.2.color).toFinset
          rw [hcolors]
          exact hused
      · show ColorInv (handleMove sid position now s).state
        rw [handleMove_reject hget ht]
        exact ⟨hnd, hused, hsub⟩
  | toggleDoor sid => exact ⟨hnd, hused, hsub⟩
  | arcade sid data =>
    cases data with
    | none => exact ⟨hnd, hused, hsub⟩
    | some d => exact ⟨hnd, hused, hsub⟩
  | disconnect sid =>
    cases hget : mapGet s.players sid with
    | none =>
      show ColorInv (handleDisconnect sid s).state
      rw [handleDisconnect_none hget]
      have hdel := mapDelete_of_get_none s.players sid hget
      refine ⟨?_, ?_, hsub⟩
      · show ((mapDelete s.players sid).map fun pr => pr.2.color).Nodup
        rw [hdel]
        exact hnd
      · show s.usedColors = ((mapDelete s.players sid).map fun pr => pr.2.color).toFinset
        rw [hdel]
        exact hused
    | some player =>
      show ColorInv (handleDisconnect sid s).state
      rw [handleDisconnect_some hget]
      obtain ⟨hdn, hdf⟩ := mapDelete_colors hget hnd
      refine ⟨hdn, ?_, ?_⟩
      · show s.usedColors.erase player.color
          = ((mapDelete s.players sid).map fun pr => pr.2.color).toFinset
        rw [hdf, hused]
        rfl
      · exact (Finset.erase_subset _ _).trans hsub

theorem colorInv_runTrace (trace : List Event) : ∀ s : ServerState, ColorInv s →
    goodTrace s trace = true → ColorInv (runTrace s trace) := by
  induction trace with
  | nil => exact fun s hs _ => hs
  | cons e rest ih =>
    intro s hs hg
    simp only [goodTrace, Bool.and_eq_true] at hg
    exact ih _ (colorInv_handle hs hg.1) hg.2


/-! Lemmas about the move throttle. -/

theorem handleMove_drop {sid : String} {position : Option PosXY} {now : Nat} {s : ServerState}
    (ht : ¬ UPDATE_THROTTLE_MS ≤ now - (mapGet s.throttle sid).getD 0) :
    handleMove sid position now s = { state := s, emits := [], err := none } := by
  cases hget : mapGet s.players sid with
  | none => exact handleMove_pending hget
  | some player => exact handleMove_reject hget ht

theorem runTraceEmits_cons (s : ServerState) (e : Event) (rest : List Event) :
    runTraceEmits s (e :: rest)
      = ((runTraceEmits (handle e s).state rest).1,
         (handle e s).emits ++ (runTraceEmits (handle e s).state rest).2) := rfl

theorem runTraceEmits_moves_rejected (sid : String) (T : Nat) :
    ∀ (moves : List (Option PosXY × Nat)) (s : ServerState),
      T ≤ (mapGet s.throttle sid).getD 0 →
      (∀ m ∈ moves, m.2 < T + UPDATE_THROTTLE_MS) →
      runTraceEmits s (moves.map fun m => Event.move sid m.1 m.2) = (s, []) := by
  intro moves
  induction moves with
  | nil => intro s _ _; rfl
  | cons m rest ih =>
    intro s hT hw
    have h16 : UPDATE_THROTTLE_MS = 16 := rfl
    have hm := hw m (List.mem_cons_self _ _)
    have hrej : ¬ UPDATE_THROTTLE_MS ≤ m.2 - (mapGet s.throttle sid).getD 0 := by
      omega
    rw [List.map_cons, runTraceEmits_cons]
    simp only [handle, handleMove_drop hrej]
    rw [ih s hT (fun x hx => hw x (List.mem_cons_of_mem _ hx))]
    rfl

theorem countPlayerMoved_le_one_in_window (sid : String) (T : Nat) :
    ∀ (moves : List (Option PosXY × Nat)) (s : ServerState),
      (∀ m ∈ moves, T ≤ m.2 ∧ m.2 < T + UPDATE_THROTTLE_MS) →
      countPlayerMoved (runTraceEmits s (moves.map fun m => Event.move sid m.1 m.2)).2 ≤ 1 := by
  intro moves
  induction moves with
  | nil => intro s _; simp [runTraceEmits, countPlayerMoved]
  | cons m rest ih =>
    intro s hw
    obtain ⟨hT, hlt⟩ := hw m (List.mem_cons_self _ _)
    by_cases ht : UPDATE_THROTTLE_MS ≤ m.2 - (mapGet s.throttle sid).getD 0
    · cases hget : mapGet s.players sid with
      | none =>
        rw [List.map_cons, runTraceEmits_cons]
        simp only [handle, handleMove_pending hget]
        simpa [countPlayerMoved] using ih s (fun x hx => hw x (List.mem_cons_of_mem _ hx))
      | some player =>
        rw [List.map_cons, runTraceEmits_cons]
        simp only [handle, handleMove_admitted hget ht]
        have hrest := runTraceEmits_moves_rejected sid T rest
          { s with
            players := mapSet s.players sid { player with position := m.1, lastUpdate := m.2 },
            throttle := mapSet s.throttle sid m.2 }
          (by simp only [mapGet_mapSet_self, Option.getD_some]; exact hT)
          (fun x hx => (hw x (List.mem_cons_of_mem _ hx)).2)
        simp only at hrest ⊢
        rw [hrest]
        simp [countPlayerMoved, isPlayerMoved]
    · rw [List.map_cons, runTraceEmits_cons]
      simp only [handle, handleMove_drop ht]
      simpa [countPlayerMoved] using ih s (fun x hx => hw x (List.mem_cons_of_mem _ hx))

/-! Door parity along toggle-only traces. -/

theorem runTrace_toggles_doorOpen :
    ∀ (evs : List Event) (s : ServerState), (∀ e ∈ evs, isToggle e = true) →
      (runTrace s evs).doorOpen = if evs.length % 2 = 0 then s.doorOpen else !s.doorOpen := by
  intro evs
  induction evs with
  | nil => intro s _; simp [runTrace]
  | cons e rest ih =>
    intro s hall
    have he := hall e (List.mem_cons_self _ _)
    cases e with
    | toggleDoor sid =>
      have hstep : runTrace s (Event.toggleDoor sid :: rest)
          = runTrace { s with doorOpen := !s.doorOpen } rest := rfl
      rw [hstep, ih _ (fun x hx => hall x (List.mem_cons_of_mem _ hx))]
      rcases Nat.mod_two_eq_zero_or_one rest.length with h | h
      · have h2 : (rest.length + 1) % 2 = 1 := by omega
        simp [h, h2]
      · have h2 : (rest.length + 1) % 2 = 0 := by omega
        simp [h, h2]
    | join sid payload now => simp [isToggle] at he
    | move sid position now => simp [isToggle] at he
    | arcade sid data => simp [isToggle] at he
    | disconnect sid => simp [isToggle] at he

/-! Remaining shared helper lemmas. -/

theorem mapSet_values_filter {sid : String} {info : PlayerInfo} (hinfo : info.id = sid) :
    ∀ {l : List (String × PlayerInfo)}, (∀ pr ∈ l, pr.2.id = pr.1) →
      ((mapSet l sid info).map Prod.snd).filter (fun p => p.id != sid)
        = (l.map Prod.snd).filter (fun p => p.id != sid) := by
  intro l
  induction l with
  | nil =>
    intro _
    simp [mapSet, hinfo]
  | cons hd tl ih =>
    intro hwf
    obtain ⟨k₁, v₁⟩ := hd
    by_cases hk : k₁ = sid
    · have hv : v₁.id = sid := by
        rw [hwf (k₁, v₁) (List.mem_cons_self _ _)]
        exact hk
      simp [mapSet, hk, hinfo, hv]
    · simp only [mapSet, if_neg hk, List.map_cons, List.filter_cons]
      rw [ih (fun pr hpr => hwf pr (List.mem_cons_of_mem _ hpr))]

theorem handleDisconnect_noop {sid : String} {s : ServerState}
    (hp : mapGet s.players sid = none) (ht : mapGet s.throttle sid = none) :
    (handleDisconnect sid s).state = s ∧
    (handleDisconnect sid s).emits = [(Target.all, Msg.playerLeft sid)] := by
  rw [handleDisconnect_none hp, mapDelete_of_get_none _ _ hp, mapDelete_of_get_none _ _ ht]
  exact ⟨rfl, rfl⟩

theorem assignColor_fst_mem (used : Finset String) :
    (assignColor used).1 ∈ (assignColor used).2 := by
  unfold assignColor
  cases hc : assignColorFrom used colorLabels with
  | some c => simp
  | none =>
    simp only
    exact (assignColorFrom_eq_none_iff used colorLabels).mp hc "01" (by decide)

/-! Claim theorems. -/

/-- C1 counterexample: a disconnect of a connection that never joined
is not a pure no-op at the broadcast level — `playerLeft` is emitted
to all connections — and a second disconnect after removal also emits
`playerLeft` again rather than nothing. -/
theorem C1_counterexample :
    (handleDisconnect "a" initState).emits ≠ [] ∧
    (handleDisconnect "a" (handleDisconnect "a" initState).state).emits ≠ [] ∧
    (handleDisconnect "a" initState).emits = [(Target.all, Msg.playerLeft "a")] := by
  decide

/-- C1 (amended): for a connection with no registry entry and no
throttle record, disconnect changes no state and releases no color,
but it still broadcasts `playerLeft` to all connections; after a
disconnect has removed a connection, a further disconnect for it
changes no state and releases no color while again broadcasting
`playerLeft` — so the color-release side effect occurs only once, on
the first disconnect of an active connection, while the broadcast
recurs every time. -/
theorem C1_amended_disconnect :
    (∀ (sid : String) (s : ServerState),
      mapGet s.players sid = none → mapGet s.throttle sid = none →
      (handleDisconnect sid s).state = s ∧
      (handleDisconnect sid s).emits = [(Target.all, Msg.playerLeft sid)]) ∧
    (∀ (sid : String) (s : ServerState),
      (s.players.map Prod.fst).Nodup → (s.throttle.map Prod.fst).Nodup →
      (handleDisconnect sid (handleDisconnect sid s).state).state
        = (handleDisconnect sid s).state ∧
      (handleDisconnect sid (handleDisconnect sid s).state).emits
        = [(Target.all, Msg.playerLeft sid)]) := by
  constructor
  · intro sid s hp ht
    exact handleDisconnect_noop hp ht
  · intro sid s hpk htk
    have hp2 : mapGet (handleDisconnect sid s).state.players sid = none := by
      cases hget : mapGet s.players sid with
      | none =>
        rw [handleDisconnect_none hget]
        exact mapGet_mapDelete_self _ _ hpk
      | some p =>
        rw [handleDisconnect_some hget]
        exact mapGet_mapDelete_self _ _ hpk
    have ht2 : mapGet (handleDisconnect sid s).state.throttle sid = none := by
      cases hget : mapGet s.players sid with
      | none =>
        rw [handleDisconnect_none hget]
        exact mapGet_mapDelete_self _ _ htk
      | some p =>
        rw [handleDisconnect_some hget]
        exact mapGet_mapDelete_self _ _ htk
    exact handleDisconnect_noop hp2 ht2

/-- C1 witness: the amended disconnect theorem applied to the initial
state, where connection "w1" has neither a registry nor a throttle
entry. -/
theorem C1_amended_disconnect_witness :
    (mapGet initState.players "w1" = none ∧ mapGet initState.throttle "w1" = none ∧
      (handleDisconnect "w1" initState).state = initState ∧
      (handleDisconnect "w1" initState).emits = [(Target.all, Msg.playerLeft "w1")]) ∧
    ((initState.players.map Prod.fst).Nodup ∧ (initState.throttle.map Prod.fst).Nodup ∧
      (handleDisconnect "w1" (handleDisconnect "w1" initState).state).state
        = (handleDisconnect "w1" initState).state ∧
      (handleDisconnect "w1" (handleDisconnect "w1" initState).state).emits
        = [(Target.all, Msg.playerLeft "w1")]) := by
  have h₁ := C1_amended_disconnect.1 "w1" initState (by decide) (by decide)
  have h₂ := C1_amended_disconnect.2 "w1" initState (by decide) (by decide)
  exact ⟨⟨by decide, by decide, h₁.1, h₁.2⟩, ⟨by decide, by decide, h₂.1, h₂.2⟩⟩

/-- C2 counterexample: a `playerJoin` with no payload object and an
`arcadeMachineTransparency` with no payload object both raise a
TypeError in the handler, so the claim that every handler — absent
payloads included — completes without error is false. -/
theorem C2_counterexample :
    (handle (Event.join "a" none 0) initState).err ≠ none ∧
    (handle (Event.arcade "a" none) initState).err ≠ none := by
  decide

/-- C2 (amended): every handler completes without raising an error
provided the event payload is a present object — its fields may all
be absent and are then treated as undefined; only a `playerJoin` or
`arcadeMachineTransparency` whose whole payload is absent throws. -/
theorem C2_amended_no_throw (e : Event) (s : ServerState)
    (h : payloadPresentB e = true) : (handle e s).err = none := by
  cases e with
  | join sid payload now =>
    cases payload with
    | none => simp [payloadPresentB] at h
    | some pd =>
      show (handleJoin sid (some pd) now s).err = none
      rw [handleJoin_some]
  | move sid position now =>
    show (handleMove sid position now s).err = none
    cases hget : mapGet s.players sid with
    | none => rw [handleMove_pending hget]
    | some player =>
      by_cases ht : UPDATE_THROTTLE_MS ≤ now - (mapGet s.throttle sid).getD 0
      · rw [handleMove_admitted hget ht]
      · rw [handleMove_reject hget ht]
  | toggleDoor sid => rfl
  | arcade sid data =>
    cases data with
    | none => simp [payloadPresentB] at h
    | some d => rfl
  | disconnect sid =>
    show (handleDisconnect sid s).err = none
    cases hget : mapGet s.players sid with
    | none => rw [handleDisconnect_none hget]
    | some p => rw [handleDisconnect_some hget]

/-- C2 witness: a join whose payload object is present (with both
fields supplied) completes without error. -/
theorem C2_amended_no_throw_witness :
    payloadPresentB (Event.join "w2" (some { name := some "Nova", color := some "07" }) 3) = true ∧
    (handle (Event.join "w2" (some { name := some "Nova", color := some "07" }) 3) initState).err = none :=
  ⟨by decide, C2_amended_no_throw _ initState (by decide)⟩

/-- C3 counterexample: along `c3Trace` at most three connections are
ever concurrently registered (so the pool-size bound holds), yet at
its end the two distinct active connections "a" and "c" both hold
color "01": re-joins by "b" leaked every pool slot, and the
exhaustion fallback duplicated "01". -/
theorem C3_counterexample :
    boundedActive initState c3Trace = true ∧
    (mapGet (runTrace initState c3Trace).players "a").map PlayerInfo.color = some "01" ∧
    (mapGet (runTrace initState c3Trace).players "c").map PlayerInfo.color = some "01" ∧
    ¬ (activeColors (runTrace initState c3Trace)).Nodup := by
  decide

/-- C3 (amended): provided every join carries a payload, comes from a
connection that is not currently registered (no re-join), and happens
while fewer than 16 players are registered, no two registered
connections ever hold the same color; `assign()` scans slots "01"
through "16" in ascending order, returns the first free slot after
marking it used, and returns the fallback "01" without marking when
the pool is full; a free slot (such as one just released) is returned
only when every slot scanned before it is taken. -/
theorem C3_amended_color_uniqueness :
    (∀ trace : List Event, goodTrace initState trace = true →
      (activeColors (runTrace initState trace)).Nodup) ∧
    (∀ used : Finset String, (∀ c ∈ colorLabels, c ∈ used) →
      assignColor used = ("01", used)) ∧
    (∀ (used : Finset String) (c : String), assignColorFrom used colorLabels = some c →
      (assignColor used).1 = c ∧ (assignColor used).2 = insert c used ∧
      c ∉ used ∧ c ∈ colorLabels ∧
      ∀ d ∈ colorLabels.takeWhile (fun l => l != c), d ∈ used) := by
  refine ⟨?_, ?_, ?_⟩
  · intro trace hg
    exact (colorInv_runTrace trace initState colorInv_initState hg).1
  · intro used hall
    unfold assignColor
    rw [(assignColorFrom_eq_none_iff used colorLabels).mpr hall]
  · intro used c hc
    obtain ⟨h₁, h₂, h₃⟩ := assignColorFrom_some used hc
    have ha : (assignColor used).1 = c := by
      unfold assignColor
      rw [hc]
    have hb : (assignColor used).2 = insert c used := by
      unfold assignColor
      rw [hc]
    exact ⟨ha, hb, h₂, h₁, h₃⟩

/-- C3 witness: the uniqueness part of the amended theorem applied to
a two-join disciplined trace. -/
theorem C3_amended_color_uniqueness_witness :
    goodTrace initState [joinEvt "a", joinEvt "b"] = true ∧
    (activeColors (runTrace initState [joinEvt "a", joinEvt "b"])).Nodup :=
  ⟨by decide, C3_amended_color_uniqueness.1 [joinEvt "a", joinEvt "b"] (by decide)⟩

/-- C4: a join by connection A emits, in order, (a) the assigned
color to A only, (b) a `gameState` snapshot to A only holding exactly
the registered players other than A plus the door state — never A's
own id — and (c) A's full record broadcast to every other connection
and not to A. -/
theorem C4_join_emission_order (sid : String) (pd : JoinPayload) (now : Nat) (s : ServerState)
    (hwf : ∀ pr ∈ s.players, pr.2.id = pr.1) :
    (handleJoin sid (some pd) now s).emits =
      [(Target.sender, Msg.playerColorAssigned (assignColor s.usedColors).1),
       (Target.sender, Msg.gameState
         ((s.players.map Prod.snd).filter (fun p => p.id != sid)) s.doorOpen),
       (Target.others, Msg.playerJoined
         { id := sid, name := pd.name, color := (assignColor s.usedColors).1,
           position := some spawnPosition, lastUpdate := now })] ∧
    ∀ q ∈ (s.players.map Prod.snd).filter (fun p => p.id != sid), q.id ≠ sid := by
  constructor
  · rw [handleJoin_some]
    dsimp only
    rw [@mapSet_values_filter sid
      { id := sid, name := pd.name, color := (assignColor s.usedColors).1,
        position := some spawnPosition, lastUpdate := now } rfl s.players hwf]
  · intro q hq
    have := List.of_mem_filter hq
    simpa using this

/-- C4 witness: the scenario of the spec — "a" joins the empty server,
then "b" joins: "b" privately receives color "02" and a snapshot
holding exactly "a" (never "b" itself), and "b" joined-broadcast goes
to the others. -/
theorem C4_join_emission_order_witness :
    (handleJoin "b" (some { name := some "Rey", color := none }) 7
        (handleJoin "a" (some { name := some "Nova", color := none }) 0 initState).state).emits =
      [(Target.sender, Msg.playerColorAssigned "02"),
       (Target.sender, Msg.gameState
         [{ id := "a", name := some "Nova", color := "01",
            position := some spawnPosition, lastUpdate := 0 }] false),
       (Target.others, Msg.playerJoined
         { id := "b", name := some "Rey", color := "02",
           position := some spawnPosition, lastUpdate := 7 })] := by
  have h := C4_join_emission_order "b" { name := some "Rey", color := none } 7
    (handleJoin "a" (some { name := some "Nova", color := none }) 0 initState).state
    (by decide)
  rw [h.1]
  decide

/-- C5 counterexample: after "a" joins (no throttle record exists for
"a"), a move at time 5 is rejected — no broadcast and no state change
— although the claim says a move with no prior record is always
admitted: the code treats a missing record as 0 and requires
now - 0 >= 16. -/
theorem C5_counterexample :
    mapGet c5State.throttle "a" = none ∧
    mapGet c5State.players "a" ≠ none ∧
    (handleMove "a" (some { x := 1, y := 2 }) 5 c5State).emits = [] ∧
    (handleMove "a" (some { x := 1, y := 2 }) 5 c5State).state = c5State := by
  decide

/-- C5 (amended): a move by an active connection at time `now` is
admitted if and only if `now` minus the last-admitted timestamp is at
least 16 ms, where a missing throttle record counts as timestamp 0
(so a first move is admitted only when `now >= 16`); an admitted move
records `now`, overwrites the player position and `lastUpdate`, and
broadcasts `playerMoved` to all others; a rejected move changes
nothing and broadcasts nothing; and any number of move events from
one connection within a single 16 ms window yields at most one
`playerMoved` broadcast. -/
theorem C5_amended_throttle :
    (∀ (sid : String) (position : Option PosXY) (now : Nat) (s : ServerState)
        (player : PlayerInfo), mapGet s.players sid = some player →
      UPDATE_THROTTLE_MS ≤ now - (mapGet s.throttle sid).getD 0 →
      handleMove sid position now s =
        { state := { s with
            players := mapSet s.players sid
              { player with position := position, lastUpdate := now },
            throttle := mapSet s.throttle sid now },
          emits := [(Target.others, Msg.playerMoved sid position)], err := none }) ∧
    (∀ (sid : String) (position : Option PosXY) (now : Nat) (s : ServerState),
      now - (mapGet s.throttle sid).getD 0 < UPDATE_THROTTLE_MS →
      handleMove sid position now s = { state := s, emits := [], err := none }) ∧
    (∀ (sid : String) (T : Nat) (moves : List (Option PosXY × Nat)) (s : ServerState),
      (∀ m ∈ moves, T ≤ m.2 ∧ m.2 < T + UPDATE_THROTTLE_MS) →
      countPlayerMoved (runTraceEmits s (moves.map fun m => Event.move sid m.1 m.2)).2 ≤ 1) :=
  ⟨fun _ _ _ _ _ hget ht => handleMove_admitted hget ht,
   fun _ _ _ _ hlt => handleMove_drop (Nat.not_le.mpr hlt),
   fun sid T moves s hw => countPlayerMoved_le_one_in_window sid T moves s hw⟩

/-- C5 witness: three moves by "a" at times 100, 105, 110 — all
inside one 16 ms window — produce at most one broadcast. -/
theorem C5_amended_throttle_witness :
    (∀ m ∈ [((some { x := 1, y := 2 } : Option PosXY), (100 : Nat)),
            (some { x := 3, y := 4 }, 105), (some { x := 5, y := 6 }, 110)],
      (100 : Nat) ≤ m.2 ∧ m.2 < 100 + UPDATE_THROTTLE_MS) ∧
    countPlayerMoved (runTraceEmits c5State
      ([((some { x := 1, y := 2 } : Option PosXY), (100 : Nat)),
        (some { x := 3, y := 4 }, 105),
        (some { x := 5, y := 6 }, 110)].map fun m => Event.move "a" m.1 m.2)).2 ≤ 1 :=
  ⟨by decide,
   C5_amended_throttle.2.2 "a" 100
     [(some { x := 1, y := 2 }, 100), (some { x := 3, y := 4 }, 105),
      (some { x := 5, y := 6 }, 110)] c5State (by decide)⟩

/-- C6: the color a client declares in its join payload is never
honored — for every payload, the stored record carries the freshly
allocated color, the fixed spawn position (400, 680), and the current
timestamp, regardless of the supplied name and color. -/
theorem C6_join_ignores_declared_color (sid : String) (pd : JoinPayload) (now : Nat)
    (s : ServerState) :
    mapGet (handleJoin sid (some pd) now s).state.players sid =
      some { id := sid, name := pd.name, color := (assignColor s.usedColors).1,
             position := some spawnPosition, lastUpdate := now } := by
  rw [handleJoin_some]
  exact mapGet_mapSet_self _ _ _

/-- C7 counterexample: a pending connection (no registry entry) that
sends `toggleDoor` or `arcadeMachineTransparency` does mutate state
and does broadcast, so the claim that every non-join event from a
pending connection is a no-op is false. -/
theorem C7_counterexample :
    mapGet initState.players "a" = none ∧
    (handleToggleDoor "a" initState).state ≠ initState ∧
    (handleToggleDoor "a" initState).emits ≠ [] ∧
    (handleArcade "a"
      (some { machineId := some "m", isTransparent := some true, forPlayer := none })
      initState).state ≠ initState ∧
    (handleArcade "a"
      (some { machineId := some "m", isTransparent := some true, forPlayer := none })
      initState).emits ≠ [] := by
  decide

/-- C7 (amended): for a pending connection only `playerMove` is
ignored as a no-op (registry, door, and overlays unchanged and no
broadcast); `toggleDoor` and `arcadeMachineTransparency` take their
full effect and broadcast regardless of whether the sender ever
joined. -/
theorem C7_amended_pending_events :
    (∀ (sid : String) (position : Option PosXY) (now : Nat) (s : ServerState),
      mapGet s.players sid = none →
      handleMove sid position now s = { state := s, emits := [], err := none }) ∧
    (∀ (sid : String) (s : ServerState),
      (handleToggleDoor sid s).state = { s with doorOpen := !s.doorOpen } ∧
      (handleToggleDoor sid s).emits = [(Target.all, Msg.doorStateChanged (!s.doorOpen))]) ∧
    (∀ (sid : String) (d : TransparencyData) (s : ServerState),
      (handleArcade sid (some d) s).state =
        { s with arcadeMachines := mapSet s.arcadeMachines d.machineId { isTransparent := d.isTransparent, forPlayer := d.forPlayer } } ∧
      (handleArcade sid (some d) s).emits =
        [(Target.others, Msg.arcadeMachineTransparencyChanged d)]) :=
  ⟨fun _ _ _ _ h => handleMove_pending h,
   fun _ _ => ⟨rfl, rfl⟩,
   fun _ _ _ => ⟨rfl, rfl⟩⟩

/-- C7 witness: a move from the never-joined connection "w7" on the
initial state is a complete no-op. -/
theorem C7_amended_pending_events_witness :
    mapGet initState.players "w7" = none ∧
    handleMove "w7" (some { x := 9, y := 9 }) 50 initState
      = { state := initState, emits := [], err := none } :=
  ⟨by decide, C7_amended_pending_events.1 "w7" (some { x := 9, y := 9 }) 50 initState (by decide)⟩

/-- C8: every `toggleDoor` flips the shared flag and broadcasts the
new door state to all connections including the sender, and an even
number of toggles starting from a closed door returns it to closed. -/
theorem C8_door_toggle_parity :
    (∀ (sid : String) (s : ServerState),
      (handleToggleDoor sid s).state.doorOpen = !s.doorOpen ∧
      (handleToggleDoor sid s).emits = [(Target.all, Msg.doorStateChanged (!s.doorOpen))]) ∧
    (∀ (evs : List Event) (s : ServerState), (∀ e ∈ evs, isToggle e = true) →
      evs.length % 2 = 0 → s.doorOpen = false →
      (runTrace s evs).doorOpen = false) := by
  refine ⟨fun sid s => ⟨rfl, rfl⟩, ?_⟩
  intro evs s hall hlen hdoor
  rw [runTrace_toggles_doorOpen evs s hall, if_pos hlen, hdoor]

/-- C8 witness: two toggles by different senders from the initial
(closed) state leave the door closed. -/
theorem C8_door_toggle_parity_witness :
    (∀ e ∈ [Event.toggleDoor "x", Event.toggleDoor "y"], isToggle e = true) ∧
    ([Event.toggleDoor "x", Event.toggleDoor "y"] : List Event).length % 2 = 0 ∧
    initState.doorOpen = false ∧
    (runTrace initState [Event.toggleDoor "x", Event.toggleDoor "y"]).doorOpen = false :=
  ⟨by decide, by decide, rfl,
   C8_door_toggle_parity.2 [Event.toggleDoor "x", Event.toggleDoor "y"] initState
     (by decide) (by decide) rfl⟩

/-- C9: both diagnostic queries leave the whole state unchanged and
always succeed, the health query returning status "ok" with the
number of registered players, and the full-state query returning the
player records, the door state, and the overlay map as key-value
entries. -/
theorem C9_diagnostic_queries_pure (s : ServerState) :
    (healthQuery s).1 = s ∧ (gameStateQuery s).1 = s ∧
    (healthQuery s).2 = ("ok", s.players.length) ∧
    (gameStateQuery s).2 = { players := s.players.map Prod.snd, doorOpen := s.doorOpen,
                             arcadeMachines := s.arcadeMachines } :=
  ⟨rfl, rfl, rfl, rfl⟩

/-- C10: a second `playerJoin` from an already-active connection
stores a replacement record at the spawn position with a freshly
allocated color (marked used), while the previous color is never
released — `usedColors` only grows across a join — so repeated
re-joins by a single connection exhaust the 16-slot pool, as the
concrete 16-fold re-join by "a" shows: one registered player, all 16
colors used, holder color "16", and the allocator already in its
fallback returning "01". -/
theorem C10_rejoin_leaks_color :
    (∀ (sid : String) (pd : JoinPayload) (now : Nat) (s : ServerState) (p : PlayerInfo),
      mapGet s.players sid = some p →
      mapGet (handleJoin sid (some pd) now s).state.players sid =
        some { id := sid, name := pd.name, color := (assignColor s.usedColors).1,
               position := some spawnPosition, lastUpdate := now } ∧
      (assignColor s.usedColors).1 ∈ (handleJoin sid (some pd) now s).state.usedColors ∧
      s.usedColors ⊆ (handleJoin sid (some pd) now s).state.usedColors ∧
      (p.color ∈ s.usedColors → p.color ∈ (handleJoin sid (some pd) now s).state.usedColors) ∧
      ((∃ c ∈ colorLabels, c ∉ s.usedColors) → (assignColor s.usedColors).1 ∉ s.usedColors)) ∧
    ((runTrace initState (List.replicate 16 (joinEvt "a"))).players.length = 1 ∧
     (runTrace initState (List.replicate 16 (joinEvt "a"))).usedColors.card = 16 ∧
     "01" ∈ (runTrace initState (List.replicate 16 (joinEvt "a"))).usedColors ∧
     (assignColor (runTrace initState (List.replicate 16 (joinEvt "a"))).usedColors).1 = "01" ∧
     (mapGet (runTrace initState (List.replicate 16 (joinEvt "a"))).players "a").map
       PlayerInfo.color = some "16") := by
  constructor
  · intro sid pd now s p hget
    refine ⟨?_, ?_, ?_, ?_, ?_⟩
    · rw [handleJoin_some]
      exact mapGet_mapSet_self _ _ _
    · rw [handleJoin_some]
      exact assignColor_fst_mem s.usedColors
    · rw [handleJoin_some]
      exact assignColor_subset s.usedColors
    · rw [handleJoin_some]
      exact fun hp => assignColor_subset s.usedColors hp
    · rintro ⟨c, hcl, hcnot⟩
      have hnf : ¬ colorLabels.toFinset ⊆ s.usedColors :=
        fun hsub => hcnot (hsub (List.mem_toFinset.mpr hcl))
      obtain ⟨c₂, hc₂⟩ := assignColor_isSome_of_not_full hnf
      obtain ⟨-, hnotin, -⟩ := assignColorFrom_some _ hc₂
      have he : (assignColor s.usedColors).1 = c₂ := by
        unfold assignColor
        rw [hc₂]
      rw [he]
      exact hnotin
  · decide

/-- C10 witness: the re-join theorem applied to the state after "a"
joined once — "a" is active with color "01", and the re-join replaces
its record while keeping "01" marked used. -/
theorem C10_rejoin_leaks_color_witness :
    mapGet c5State.players "a"
      = some { id := "a", name := none, color := "01",
               position := some spawnPosition, lastUpdate := 0 } ∧
    (mapGet (handleJoin "a" (some { name := none, color := some "09" }) 9 c5State).state.players "a" =
      some { id := "a", name := none, color := (assignColor c5State.usedColors).1,
             position := some spawnPosition, lastUpdate := 9 } ∧
     (assignColor c5State.usedColors).1
       ∈ (handleJoin "a" (some { name := none, color := some "09" }) 9 c5State).state.usedColors ∧
     c5State.usedColors
       ⊆ (handleJoin "a" (some { name := none, color := some "09" }) 9 c5State).state.usedColors ∧
     (({ id := "a", name := none, color := "01", position := some spawnPosition,
         lastUpdate := 0 } : PlayerInfo).color ∈ c5State.usedColors →
       ({ id := "a", name := none, color := "01", position := some spawnPosition,
          lastUpdate := 0 } : PlayerInfo).color
         ∈ (handleJoin "a" (some { name := none, color := some "09" }) 9 c5State).state.usedColors) ∧
     ((∃ c ∈ colorLabels, c ∉ c5State.usedColors) →
       (assignColor c5State.usedColors).1 ∉ c5State.usedColors)) :=
  ⟨by decide,
   C10_rejoin_leaks_color.1 "a" { name := none, color := some "09" } 9 c5State
     { id := "a", name := none, color := "01", position := some spawnPosition, lastUpdate := 0 }
     (by decide)⟩
